import Mathlib

/-!
Verification of the remote-control and health-monitoring service
(python-backend: remote_control_server.py and privileged_helper.py)
against its natural-language specification.

Modelling conventions used throughout this development:
* Timestamps (ISO-8601 UTC strings in the source) are modelled as integers
  at one-second granularity; `latency_ms` is the difference scaled by 1000.
* External effects (subprocess execution, TCP/HTTP probes, psql queries)
  are passed in as explicit oracle arguments, so every function is pure
  and executable.
* The SQLite tables are modelled as in-memory lists; the monotonic
  AUTOINCREMENT row id of `probe_runs` is carried explicitly.
* Python `str.strip` is modelled by `pyStrip`; Python dict lookups with
  defaults are modelled by structure fields with the same defaults.
-/

namespace RC

/-- Whitespace characters removed by Python str.strip. -/
def isPySpace (c : Char) : Bool :=
  c = ' ' || c = '\t' || c = '\n' || c = '\r' || c = '\x0B' || c = '\x0C'

/-- Model of Python str.strip: drop leading and trailing whitespace. -/
def pyStrip (s : String) : String :=
  String.mk (((s.toList.dropWhile isPySpace).reverse.dropWhile isPySpace).reverse)

/-- Result envelope of run_cmd (both processes normalize subprocess results
to this shape; the command echo field of the control-plane variant is
carried separately as the spawned-command list). -/
structure CmdResult where
  ok : Bool
  return_code : Int
  stdout : String
  stderr : String
deriving DecidableEq, Repr

/-- The in-memory configuration snapshot: the parts of config.json the
action gateway and the privileged helper consult.  Entries are kept as the
raw strings of the JSON document. -/
structure Config where
  services : List String
  containers : List String
  serviceActions : List String
  containerActions : List String
deriving DecidableEq, Repr

/-- RemoteControlApi._allowed_actions: raw list from config.actions, empty
for any other target_type. -/
def allowedActions (cfg : Config) (target_type : String) : List String :=
  if target_type = "service" then cfg.serviceActions
  else if target_type = "container" then cfg.containerActions
  else []

/-- Configured target list consulted by the gateway for a target type
(RemoteControlApi._configured_services / _configured_containers). -/
def configuredTargets (cfg : Config) (target_type : String) : List String :=
  if target_type = "service" then cfg.services else cfg.containers

/-- Body of a POST /api/v1/action request (fields default to empty
strings, as str(req.get(..., "")) does). -/
structure ActionRequest where
  target_type : String
  action : String
  target : String
  reason : String
deriving DecidableEq, Repr

/-- One row of the action_audit table. -/
structure AuditRow where
  timestamp_utc : String
  actor : String
  remote_ip : String
  target_type : String
  target : String
  action : String
  reason : String
  ok : Bool
  return_code : Option Int
  stderr : String
deriving DecidableEq, Repr

/-- Response envelope of execute_action.  Rejection envelopes in the
source carry only ok and error; the remaining fields are modelled as the
defaults below in that case. -/
structure ActionResponse where
  ok : Bool
  error : String := ""
  target_type : String := ""
  target : String := ""
  action : String := ""
  reason : String := ""
  stdout : String := ""
  stderr : String := ""
  return_code : Int := 0
  timestamp_utc : String := ""
deriving DecidableEq, Repr

/-- Everything observable about one call to execute_action: the HTTP
status, the response envelope, the audit table after the call, and the
list of subprocess commands spawned during the call. -/
structure GatewayOutcome where
  status : Nat
  response : ActionResponse
  audit : List AuditRow
  spawned : List (List String)
deriving DecidableEq, Repr

/-- RemoteControlApi.execute_action.  The subprocess is the oracle exec;
nowIso is the now_utc() value; audit is the action_audit table before the
call. -/
def executeAction (cfg : Config) (actor remote_ip : String) (req : ActionRequest)
    (exec : List String → CmdResult) (nowIso : String) (audit : List AuditRow) :
    GatewayOutcome :=
  let target_type := pyStrip req.target_type
  let action := pyStrip req.action
  let target := pyStrip req.target
  let reason := pyStrip req.reason
  if target_type ≠ "service" ∧ target_type ≠ "container" then
    { status := 400
      response := { ok := false, error := "Invalid target_type. Use service|container." }
      audit := audit, spawned := [] }
  else if target = "" then
    { status := 400
      response := { ok := false, error := "Target is required." }
      audit := audit, spawned := [] }
  else if ¬ (allowedActions cfg target_type).contains action then
    { status := 403
      response := { ok := false
                    error := "Action " ++ action ++ " is not allowed for " ++ target_type ++ "." }
      audit := audit, spawned := [] }
  else if ¬ (configuredTargets cfg target_type).contains target then
    { status := 403
      response := { ok := false
                    error := (if target_type = "service" then "Service " else "Container ")
                      ++ target ++ " is not in allowlist." }
      audit := audit, spawned := [] }
  else
    let command :=
      if target_type = "service" then [ "sudo", "-n", "systemctl", action, target ]
      else [ "sudo", "-n", "docker", action, target ]
    let result := exec command
    let response : ActionResponse :=
      { ok := result.ok
        target_type := target_type, target := target, action := action, reason := reason
        stdout := result.stdout, stderr := result.stderr
        return_code := result.return_code, timestamp_utc := nowIso }
    let row : AuditRow :=
      { timestamp_utc := nowIso, actor := actor, remote_ip := remote_ip
        target_type := target_type, target := target, action := action, reason := reason
        ok := result.ok, return_code := some result.return_code, stderr := result.stderr }
    { status := if result.ok then 200 else 500
      response := response
      audit := audit ++ [row]
      spawned := [command] }

/-! Privileged helper (privileged_helper.py). -/

/-- One request of the helper wire vocabulary. -/
structure HelperRequest where
  op : String
  action : String
  target : String
deriving DecidableEq, Repr

/-- Observable outcome of PrivilegedApi.execute: the response envelope and
the commands spawned. -/
structure HelperOutcome where
  result : CmdResult
  spawned : List (List String)
deriving DecidableEq, Repr

/-- Helper error envelope shape. -/
def helperErr (msg : String) : CmdResult :=
  { ok := false, return_code := -1, stdout := "", stderr := msg }

/-- PrivilegedApi._configured_services: stripped, empties dropped. -/
def helperServices (cfg : Config) : List String :=
  (cfg.services.map pyStrip).filter (fun s => s ≠ "")

/-- PrivilegedApi._configured_containers: stripped, empties dropped. -/
def helperContainers (cfg : Config) : List String :=
  (cfg.containers.map pyStrip).filter (fun s => s ≠ "")

/-- PrivilegedApi._allowed_actions: stripped, empties dropped. -/
def helperActions (cfg : Config) (target_type : String) : List String :=
  ((if target_type = "service" then cfg.serviceActions else cfg.containerActions).map
    pyStrip).filter (fun s => s ≠ "")

/-- Docker ps format string (braces escaped). -/
def dockerPsFormat : String :=
  "\x7b\x7b.Names\x7d\x7d\t\x7b\x7b.Status\x7d\x7d\t\x7b\x7b.Image\x7d\x7d\t\x7b\x7b.Ports\x7d\x7d"

/-- PrivilegedApi.execute.  The container_status_map branch returns the
run_cmd envelope (the parsed containers map added to it is elided: it is
diagnostic payload no claim consults). -/
def helperExecute (cfg : Config) (req : HelperRequest)
    (exec : List String → CmdResult) : HelperOutcome :=
  let op := pyStrip req.op
  let action := pyStrip req.action
  let target := pyStrip req.target
  if op = "container_status_map" then
    let cmd := [ "docker", "ps", "-a", "--format", dockerPsFormat ]
    { result := exec cmd, spawned := [cmd] }
  else if op ≠ "service_action" ∧ op ≠ "container_action" then
    { result := helperErr "Unsupported operation.", spawned := [] }
  else if target = "" then
    { result := helperErr "Target is required.", spawned := [] }
  else if op = "service_action" then
    if ¬ (helperActions cfg "service").contains action then
      { result := helperErr ("Action " ++ action ++ " is not allowed for service.")
        spawned := [] }
    else if ¬ (helperServices cfg).contains target then
      { result := helperErr ("Service " ++ target ++ " is not in allowlist.")
        spawned := [] }
    else
      let cmd := [ "systemctl", action, target ]
      { result := exec cmd, spawned := [cmd] }
  else
    if ¬ (helperActions cfg "container").contains action then
      { result := helperErr ("Action " ++ action ++ " is not allowed for container.")
        spawned := [] }
    else if ¬ (helperContainers cfg).contains target then
      { result := helperErr ("Container " ++ target ++ " is not in allowlist.")
        spawned := [] }
    else
      let cmd := [ "docker", action, target ]
      { result := exec cmd, spawned := [cmd] }

/-! Store (class SQLiteStore): tables as in-memory lists. -/

/-- Structured probe-step record of the composite probes.  Diagnostic-only
payload fields of the source (latency, status codes, thresholds) are
elided; the fields consulted by the aggregation logic are kept.  A step
dict without a skipped key reads as skipped = false. -/
structure Step where
  name : String
  required : Bool
  ok : Bool
  skipped : Bool
  error : String
deriving DecidableEq, Repr

/-- Structured probe result payload (payload_json column; the type-specific
dict shapes of the source become constructors). -/
inductive Payload where
  | empty
  | probeMeta (probe_type : String)
  | tcpInfo (host : String) (port : Int) (ok : Bool) (error : String)
  | httpInfo (url : String) (status_code : Int) (ok : Bool) (error : String)
  | composite (probe : String) (base_url : String) (steps : List Step)
deriving DecidableEq, Repr

/-- One row of probe_definitions. -/
structure StoredDef where
  probe_key : String
  probe_type : String
  interval_seconds : Int
  timeout_seconds : Int
  stale_after_seconds : Int
  enabled : Bool
  probe_config_json : String
  next_run_at : Option Int
  last_run_at : Option Int
deriving DecidableEq, Repr

/-- One row of probe_runs. -/
structure RunRow where
  id : Nat
  probe_key : String
  started_at : Int
  ended_at : Int
  ok : Bool
  status : String
  latency_ms : Int
  error : String
  payload : Payload
deriving DecidableEq, Repr

/-- Result envelope of ProbeRunner.run_probe. -/
structure RunEnv where
  started_at : Int
  ended_at : Int
  latency_ms : Int
  ok : Bool
  status : String
  error : String
  payload : Payload
deriving DecidableEq, Repr

/-- The persistent store: the three tables plus the AUTOINCREMENT counter
of probe_runs. -/
structure Store where
  defs : List StoredDef
  runs : List RunRow
  nextRunId : Nat
  audit : List AuditRow
deriving DecidableEq, Repr

/-- One scheduled_probes entry of the configuration document, with the
dict-lookup defaults of _normalize_probe_definition already in the field
defaults. -/
structure DefnInput where
  key : String
  ptype : String
  interval_seconds : Int := 60
  timeout_seconds : Int := 5
  stale_after_seconds : Option Int := none
  enabled : Bool := true
  config_json : String := "\x7b\x7d"
deriving DecidableEq, Repr

/-- Normalized probe definition (SQLiteStore._normalize_probe_definition).
The value-error raises of the source become the error branch. -/
structure NormDef where
  probe_key : String
  probe_type : String
  interval_seconds : Int
  timeout_seconds : Int
  stale_after_seconds : Int
  enabled : Bool
  probe_config_json : String
deriving DecidableEq, Repr

/-- SQLiteStore._normalize_probe_definition: strip key and type, raise on
empties, clamp the numeric fields to their minima (the stale default uses
the raw interval, as the source does). -/
def normalizeProbeDefinition (d : DefnInput) : Except String NormDef :=
  let key := pyStrip d.key
  let probe_type := pyStrip d.ptype
  if key = "" then .error "Probe key is required."
  else if probe_type = "" then .error ("Probe " ++ key ++ " is missing type.")
  else .ok
    { probe_key := key
      probe_type := probe_type
      interval_seconds := max 5 d.interval_seconds
      timeout_seconds := max 1 d.timeout_seconds
      stale_after_seconds :=
        max 10 (d.stale_after_seconds.getD (max (d.interval_seconds * 2) 120))
      enabled := d.enabled
      probe_config_json := d.config_json }

/-- One iteration of the sync loop: INSERT a fresh row (next_run_at = now,
last_run_at = NULL) when the key is absent, otherwise UPDATE every field
except next_run_at and last_run_at. -/
def upsertDef (now : Int) (l : List StoredDef) (n : NormDef) : List StoredDef :=
  if l.any (fun d => d.probe_key = n.probe_key) then
    l.map (fun d =>
      if d.probe_key = n.probe_key then
        { d with probe_type := n.probe_type
                 interval_seconds := n.interval_seconds
                 timeout_seconds := n.timeout_seconds
                 stale_after_seconds := n.stale_after_seconds
                 enabled := n.enabled
                 probe_config_json := n.probe_config_json }
      else d)
  else
    l ++ [{ probe_key := n.probe_key, probe_type := n.probe_type
            interval_seconds := n.interval_seconds
            timeout_seconds := n.timeout_seconds
            stale_after_seconds := n.stale_after_seconds
            enabled := n.enabled
            probe_config_json := n.probe_config_json
            next_run_at := some now, last_run_at := none }]

/-- SQLiteStore.sync_probe_definitions.  All definitions are normalized
before any write (a normalization failure leaves the store untouched);
then each is upserted; then, ONLY when the desired key set is non-empty,
every stored key outside it is disabled. -/
def syncProbeDefinitions (st : Store) (now : Int) (defs : List DefnInput) :
    Except String Store := do
  let normed ← defs.mapM normalizeProbeDefinition
  let desired := normed.map (fun n => n.probe_key)
  let defs1 := normed.foldl (upsertDef now) st.defs
  let defs2 :=
    if desired.isEmpty then defs1
    else defs1.map (fun d =>
      if desired.contains d.probe_key then d else { d with enabled := false })
  pure { st with defs := defs2 }

/-- SQLiteStore.get_probe_definition (first row with the key; the key is
the primary key, so at most one exists in reachable stores). -/
def getProbeDefinition (key : String) (st : Store) : Option StoredDef :=
  st.defs.find? (fun d => d.probe_key = key)

/-- Comparison used by the ORDER BY of list_due_probes: null next_run_at
sorts lowest (COALESCE to the smallest value), ties broken by key. -/
def dueLe (a b : StoredDef) : Bool :=
  match a.next_run_at, b.next_run_at with
  | none, none => decide (a.probe_key ≤ b.probe_key)
  | none, some _ => true
  | some _, none => false
  | some x, some y => if x = y then decide (a.probe_key ≤ b.probe_key) else decide (x ≤ y)

/-- SQLiteStore.list_due_probes: enabled definitions whose next_run_at is
null or at most now, ordered with null lowest. -/
def listDueProbes (nowTs : Int) (st : Store) : List StoredDef :=
  (st.defs.filter (fun d =>
    d.enabled && (match d.next_run_at with | none => true | some t => decide (t ≤ nowTs)))).mergeSort
    dueLe

/-- SQLiteStore.set_probe_next_run. -/
def setProbeNextRun (key : String) (t : Int) (st : Store) : Store :=
  { st with defs := st.defs.map (fun d =>
      if d.probe_key = key then { d with next_run_at := some t } else d) }

/-- SQLiteStore.save_probe_run: append the run row and update the
definition fields in one transaction. -/
def saveProbeRun (st : Store) (key : String) (run : RunEnv) (next_run_at : Int) :
    Store :=
  { st with
    runs := st.runs ++
      [{ id := st.nextRunId, probe_key := key
         started_at := run.started_at, ended_at := run.ended_at
         ok := run.ok, status := run.status, latency_ms := run.latency_ms
         error := run.error, payload := run.payload }]
    nextRunId := st.nextRunId + 1
    defs := st.defs.map (fun d =>
      if d.probe_key = key then
        { d with last_run_at := some run.ended_at, next_run_at := some next_run_at }
      else d) }

/-- The correlated subquery of get_latest_probes: the run row with the
greatest id among the rows of one probe key. -/
def latestRunFor (runs : List RunRow) (key : String) : Option RunRow :=
  (runs.filter (fun r => r.probe_key = key)).argmax (fun r => r.id)

/-- One entry of the get_latest_probes result. -/
structure ProbeLatest where
  key : String
  ptype : String
  enabled : Bool
  interval_seconds : Int
  stale_after_seconds : Int
  next_run_at : Option Int
  last_run_at : Option Int
  latest : Option RunRow
  age_seconds : Option Int
  is_stale : Bool
deriving DecidableEq, Repr

/-- The per-definition body of get_latest_probes: join the newest run,
compute the age and the staleness flag. -/
def probeWithLatest (nowTs : Int) (runs : List RunRow) (d : StoredDef) : ProbeLatest :=
  let latest := latestRunFor runs d.probe_key
  let base : ProbeLatest :=
    { key := d.probe_key, ptype := d.probe_type, enabled := d.enabled
      interval_seconds := d.interval_seconds
      stale_after_seconds := d.stale_after_seconds
      next_run_at := d.next_run_at, last_run_at := d.last_run_at
      latest := latest, age_seconds := none, is_stale := true }
  match latest with
  | none => base
  | some r =>
      { base with
        age_seconds := some (nowTs - r.ended_at)
        is_stale := decide (nowTs - r.ended_at > d.stale_after_seconds) }

/-- SQLiteStore.get_latest_probes: every definition, ordered by key, each
joined to its newest run. -/
def getLatestProbes (nowTs : Int) (st : Store) : List ProbeLatest :=
  (st.defs.mergeSort (fun a b => decide (a.probe_key ≤ b.probe_key))).map
    (probeWithLatest nowTs st.runs)

/-- Comparison of get_probe_history: id descending. -/
def idGe (a b : RunRow) : Bool := decide (b.id ≤ a.id)

/-- SQLiteStore.get_probe_history: the runs of one key, newest (greatest
id) first, bounded by limit. -/
def getProbeHistory (key : String) (limit : Nat) (st : Store) : List RunRow :=
  ((st.runs.filter (fun r => r.probe_key = key)).mergeSort idGe).take limit

/-- SQLiteStore.add_action_audit: append one row. -/
def addActionAudit (st : Store) (row : AuditRow) : Store :=
  { st with audit := st.audit ++ [row] }

/-- SQLiteStore.read_action_audit: newest (greatest id, i.e. last
appended) first, bounded by limit. -/
def readActionAudit (limit : Nat) (st : Store) : List AuditRow :=
  st.audit.reverse.take limit

/-! Probe runner (class ProbeRunner). -/

/-- Inner result of the type-specific probe logic, before run_probe wraps
it into the timed envelope. -/
structure InnerResult where
  ok : Bool
  status : String
  error : String
  payload : Payload
deriving DecidableEq, Repr

/-- The probe types dispatched inside the try block of run_probe. -/
def supportedProbeTypes : List String :=
  [ "sms_health", "nid_health", "tcp_check", "http_check" ]

/-- ProbeRunner.run_probe.  started and ended are the wall-clock readings
(seconds); typeSpecific is the possibly-raising type-specific logic, its
Python exception modelled as the error branch of Except.  The unsupported
branch and the except branch both echo the requested probe type; the
envelope always carries the wall-clock latency. -/
def runProbe (started ended : Int) (probe_type : String)
    (typeSpecific : Except String InnerResult) : RunEnv :=
  let dispatched : Except String InnerResult :=
    if supportedProbeTypes.contains probe_type then typeSpecific
    else .ok { ok := false, status := "error"
               error := "Unsupported probe type: " ++ probe_type
               payload := .probeMeta probe_type }
  let result : InnerResult :=
    match dispatched with
    | .ok r => r
    | .error msg =>
        { ok := false, status := "error", error := msg
          payload := .probeMeta probe_type }
  { started_at := started, ended_at := ended
    latency_ms := (ended - started) * 1000
    ok := result.ok, status := result.status, error := result.error
    payload := result.payload }

/-- ProbeRunner._step_ok: a skipped step counts as ok, otherwise the ok
field decides. -/
def stepOk (s : Step) : Bool :=
  if s.skipped then true else s.ok

/-- Outcome of the tcp_check helper (an oracle: it never raises). -/
structure TcpRes where
  ok : Bool
  error : String
deriving DecidableEq, Repr

/-- Outcome of the http_probe helper (an oracle: it never raises). -/
structure HttpRes where
  ok : Bool
  status_code : Int
  error : String
deriving DecidableEq, Repr

/-- Outcome of ProbeRunner._psql_scalar: success flag, the integer scalar
when one was produced, and the error text. -/
structure PsqlRes where
  ok : Bool
  value : Option Int
  err : String
deriving DecidableEq, Repr

/-- The steps list built by ProbeRunner._probe_sms_health: the two
required provider steps, then either the two required database steps
(when a DSN is configured) or the single skipped optional db_checks
step. -/
def smsSteps (tcp : TcpRes) (http : HttpRes) (dsn : String)
    (outboxLimit failedLimit : Int) (outboxRes failedRes : PsqlRes) : List Step :=
  [ { name := "provider_tcp", required := true, ok := tcp.ok
      skipped := false, error := tcp.error }
  , { name := "provider_http", required := true, ok := http.ok
      skipped := false, error := http.error } ] ++
  (if dsn ≠ "" then
    [ { name := "db_outbox_backlog", required := true
        ok := outboxRes.ok &&
          (match outboxRes.value with | some v => decide (v ≤ outboxLimit) | none => false)
        skipped := false, error := outboxRes.err }
    , { name := "db_failed_recent", required := true
        ok := failedRes.ok &&
          (match failedRes.value with | some v => decide (v ≤ failedLimit) | none => false)
        skipped := false, error := failedRes.err } ]
  else
    [ { name := "db_checks", required := false, ok := true
        skipped := true, error := "pg_dsn not provided" } ])

/-- ProbeRunner._probe_sms_health: build the steps, aggregate with
_step_ok, name the failing steps in the error string. -/
def probeSmsHealth (baseUrl : String) (tcp : TcpRes) (http : HttpRes) (dsn : String)
    (outboxLimit failedLimit : Int) (outboxRes failedRes : PsqlRes) : InnerResult :=
  let steps := smsSteps tcp http dsn outboxLimit failedLimit outboxRes failedRes
  let failed := steps.filter (fun s => ! stepOk s)
  let ok := failed.isEmpty
  { ok := ok
    status := if ok then "healthy" else "degraded"
    error := String.intercalate "; " (failed.map (fun s => s.name))
    payload := .composite "sms_health" baseUrl steps }

/-- The steps list built by ProbeRunner._probe_nid_health: all four steps
required. -/
def nidSteps (tcp : TcpRes) (baseHttp reqHttp getHttp : HttpRes) : List Step :=
  [ { name := "gateway_tcp", required := true, ok := tcp.ok
      skipped := false, error := tcp.error }
  , { name := "gateway_http_base", required := true, ok := baseHttp.ok
      skipped := false, error := baseHttp.error }
  , { name := "gateway_http_requestData_endpoint", required := true, ok := reqHttp.ok
      skipped := false, error := reqHttp.error }
  , { name := "gateway_http_getData_endpoint", required := true, ok := getHttp.ok
      skipped := false, error := getHttp.error } ]

/-- ProbeRunner._probe_nid_health: aggregation identical to sms_health. -/
def probeNidHealth (baseUrl : String) (tcp : TcpRes)
    (baseHttp reqHttp getHttp : HttpRes) : InnerResult :=
  let steps := nidSteps tcp baseHttp reqHttp getHttp
  let failed := steps.filter (fun s => ! stepOk s)
  let ok := failed.isEmpty
  { ok := ok
    status := if ok then "healthy" else "degraded"
    error := String.intercalate "; " (failed.map (fun s => s.name))
    payload := .composite "nid_health" baseUrl steps }

/-! API operations and HTTP handlers. -/

/-- RemoteControlApi.run_probe_once: look the definition up (regardless of
its enabled flag), run it, persist the run, and advance next_run_at by the
interval.  The runner is an oracle (its network effects); nowTs is the
current time. -/
def runProbeOnce (st : Store) (nowTs : Int) (key : String)
    (runner : StoredDef → RunEnv) : Nat × Store :=
  match getProbeDefinition key st with
  | none => (404, st)
  | some probe =>
      let run := runner probe
      let next_time := nowTs + probe.interval_seconds
      (200, saveProbeRun st key run next_time)

/-- The process-wide admin token: RC_ADMIN_TOKEN stripped, empty when
unset. -/
def mkAdminToken (env : Option String) : String :=
  pyStrip (env.getD "")

/-- RemoteControlApi.require_token: fail closed on an empty secret, else
compare (hmac.compare_digest is equality; its timing behaviour is outside
this model). -/
def requireToken (adminToken provided : String) : Bool :=
  if adminToken = "" then false else provided = adminToken

/-- Model of Python str.startswith. -/
def strStartsWith (s pre : String) : Bool :=
  pre.toList.isPrefixOf s.toList

/-- Handler._token_ok: every path with the health prefix bypasses the
token check; every other path consults require_token with the stripped
X-RC-Token header. -/
def tokenOk (adminToken rawPath tokenHeader : String) : Bool :=
  if strStartsWith rawPath "/api/v1/health" then true
  else requireToken adminToken (pyStrip tokenHeader)

/-- Path component of the raw request target (urlparse: the part before
the query string). -/
def pathOf (rawPath : String) : String :=
  String.mk (rawPath.toList.takeWhile (fun c => c ≠ '?'))

/-- First value of one query parameter with a default (parse_qs plus the
indexed default lookups of the handler). -/
def queryFirst (query : List (String × String)) (key dflt : String) : String :=
  match query.find? (fun p => p.fst = key) with
  | some p => p.snd
  | none => dflt

/-- Handler.do_GET, reduced to the HTTP status it answers.  collectOk
tells whether collect_status (network and subprocess effects) succeeded;
the query string arrives already split into pairs.  Response bodies are
elided: no claim consults a GET body beyond the status. -/
def handleGet (adminToken : String) (collectOk : Bool)
    (rawPath tokenHeader : String) (query : List (String × String)) : Nat :=
  if ¬ tokenOk adminToken rawPath tokenHeader then 401
  else
    let path := pathOf rawPath
    if path = "/api/v1/health" then 200
    else if path = "/api/v1/status" then (if collectOk then 200 else 500)
    else if path = "/api/v1/audit" then 200
    else if path = "/api/v1/probes/history" then
      (if pyStrip (queryFirst query "key" "") = "" then 400 else 200)
    else if path = "/api/v1/config" then 200
    else 404

/-- Parsed POST body: the failure modes of the handler, or the object with
the field views both POST routes extract from it. -/
inductive PostBody where
  | parseError
  | nonObject
  | obj (actionReq : ActionRequest) (probeKey : String)
deriving DecidableEq, Repr

/-- Handler.do_POST: token check, route check, content-length and body
checks, then dispatch to execute_action or run_probe_once.  Returns the
HTTP status and the store after the call. -/
def handlePost (adminToken : String) (cfg : Config) (st : Store)
    (exec : List String → CmdResult) (runner : StoredDef → RunEnv)
    (nowTs : Int) (nowIso : String)
    (rawPath tokenHeader actorHeader remoteIp : String)
    (contentLength : Option Int) (maxBody : Int) (body : PostBody) : Nat × Store :=
  if ¬ tokenOk adminToken rawPath tokenHeader then (401, st)
  else
    let path := pathOf rawPath
    if path ≠ "/api/v1/action" ∧ path ≠ "/api/v1/probes/run" then (404, st)
    else
      match contentLength with
      | none => (400, st)
      | some len =>
        if len ≤ 0 ∨ len > maxBody then (400, st)
        else
          match body with
          | .parseError => (400, st)
          | .nonObject => (400, st)
          | .obj req probeKey =>
            let actor := if pyStrip actorHeader = "" then "unknown" else pyStrip actorHeader
            if path = "/api/v1/action" then
              let out := executeAction cfg actor remoteIp req exec nowIso st.audit
              (out.status, { st with audit := out.audit })
            else
              let key := pyStrip probeKey
              if key = "" then (400, st)
              else runProbeOnce st nowTs key runner

/-! Auxiliary definitions used by the verification statements. -/

/-- A configuration whose entries are already stripped and non-empty: on
such configurations the gateway and the helper read the allowlist
identically. -/
def StrippedConfig (cfg : Config) : Prop :=
  ∀ s ∈ cfg.services ++ cfg.containers ++ cfg.serviceActions ++ cfg.containerActions,
    pyStrip s = s ∧ s ≠ ""

/-- Demo configuration for witnesses: one service, restart allowed. -/
def demoCfg : Config :=
  { services := [ "nginx" ], containers := [ "appbox" ]
    serviceActions := [ "restart" ], containerActions := [ "start" ] }

/-- Configuration with a trailing space in an allowlist entry; the gateway
and the helper disagree on it. -/
def spacedCfg : Config :=
  { services := [ "nginx" ], containers := []
    serviceActions := [ "restart " ], containerActions := [] }

/-- Subprocess oracle that always succeeds. -/
def demoExec : List String → CmdResult :=
  fun _ => { ok := true, return_code := 0, stdout := "", stderr := "" }

/-- Runner oracle producing a fixed envelope. -/
def demoRunner : StoredDef → RunEnv :=
  fun _ => { started_at := 50, ended_at := 53, latency_ms := 3000
             ok := true, status := "healthy", error := "", payload := .empty }

/-- Demo stored probe definition (disabled, to exercise run_probe_once). -/
def demoDef : StoredDef :=
  { probe_key := "ssh", probe_type := "tcp_check"
    interval_seconds := 60, timeout_seconds := 3, stale_after_seconds := 120
    enabled := false, probe_config_json := "", next_run_at := some 10
    last_run_at := some 0 }

/-- Demo run row for the demo definition. -/
def demoRun : RunRow :=
  { id := 7, probe_key := "ssh", started_at := 40, ended_at := 41
    ok := true, status := "healthy", latency_ms := 1000, error := ""
    payload := .empty }

/-- Demo store holding the demo definition and one run. -/
def demoStore : Store :=
  { defs := [ demoDef ], runs := [ demoRun ], nextRunId := 8, audit := [] }

/-- The next_run_at of the stored definition of one key, as the
definitions table records it (none when the key is absent). -/
def nextRunOf (k : String) (l : List StoredDef) : Option (Option Int) :=
  (l.find? (fun d => d.probe_key = k)).map (fun d => d.next_run_at)

/-- A stored, enabled probe definition used to exercise sync. -/
def enabledDef : StoredDef :=
  { probe_key := "k", probe_type := "tcp_check"
    interval_seconds := 60, timeout_seconds := 5, stale_after_seconds := 120
    enabled := true, probe_config_json := "", next_run_at := none
    last_run_at := none }

/-- Store holding only the enabled definition. -/
def enabledStore : Store :=
  { defs := [ enabledDef ], runs := [], nextRunId := 1, audit := [] }

/-- A configuration probe entry used to exercise sync. -/
def syncInput : DefnInput :=
  { key := "new", ptype := "tcp_check" }

/-- The store after syncing enabledStore against the single entry
syncInput at time 5: the old key is disabled, the new key is inserted
with next_run_at = 5. -/
def syncedStore : Store :=
  { defs := [ { enabledDef with enabled := false }
            , { probe_key := "new", probe_type := "tcp_check"
                interval_seconds := 60, timeout_seconds := 5
                stale_after_seconds := 120, enabled := true
                probe_config_json := "\x7b\x7d", next_run_at := some 5
                last_run_at := none } ]
    runs := [], nextRunId := 1, audit := [] }

/-! Theorems. -/

/-- Claim C1: a request with a valid target_type and a non-empty target
whose action is outside config.actions[target_type] or whose target is
outside the configured services or containers is answered 403 with ok =
false, spawns no subprocess, and leaves the audit table unchanged. -/
theorem claim1_allowlist_rejection (cfg : Config) (actor ip : String)
    (req : ActionRequest) (exec : List String → CmdResult) (nowIso : String)
    (audit : List AuditRow)
    (htt : pyStrip req.target_type = "service" ∨ pyStrip req.target_type = "container")
    (htgt : pyStrip req.target ≠ "")
    (hrej : (allowedActions cfg (pyStrip req.target_type)).contains (pyStrip req.action) = false ∨
            (configuredTargets cfg (pyStrip req.target_type)).contains (pyStrip req.target) = false) :
    (executeAction cfg actor ip req exec nowIso audit).status = 403 ∧
    (executeAction cfg actor ip req exec nowIso audit).response.ok = false ∧
    (executeAction cfg actor ip req exec nowIso audit).spawned = [] ∧
    (executeAction cfg actor ip req exec nowIso audit).audit = audit := by
  have hne : ¬ (pyStrip req.target_type ≠ "service" ∧ pyStrip req.target_type ≠ "container") := by
    rcases htt with h | h <;> simp [h]
  unfold executeAction
  rcases hrej with h | h
  · have hm : pyStrip req.action ∉ allowedActions cfg (pyStrip req.target_type) := by
      simpa using h
    simp [hne, htgt, hm]
  · have hm : pyStrip req.target ∉ configuredTargets cfg (pyStrip req.target_type) := by
      simpa using h
    by_cases hact : pyStrip req.action ∈ allowedActions cfg (pyStrip req.target_type)
    · simp [hne, htgt, hact, hm]
    · simp [hne, htgt, hact]

/-- Witness for claim C1 at a concrete rejected request. -/
theorem claim1_witness :
    (executeAction demoCfg "alice" "127.0.0.1"
      { target_type := "service", action := "reload", target := "nginx", reason := "" }
      demoExec "t0" []).status = 403 ∧
    (executeAction demoCfg "alice" "127.0.0.1"
      { target_type := "service", action := "reload", target := "nginx", reason := "" }
      demoExec "t0" []).response.ok = false ∧
    (executeAction demoCfg "alice" "127.0.0.1"
      { target_type := "service", action := "reload", target := "nginx", reason := "" }
      demoExec "t0" []).spawned = [] ∧
    (executeAction demoCfg "alice" "127.0.0.1"
      { target_type := "service", action := "reload", target := "nginx", reason := "" }
      demoExec "t0" []).audit = [] :=
  claim1_allowlist_rejection demoCfg "alice" "127.0.0.1"
    { target_type := "service", action := "reload", target := "nginx", reason := "" }
    demoExec "t0" [] (Or.inl (by decide)) (by decide) (Or.inl (by decide))

/-- Claim C2: a call passing all four validation steps spawns the one
allowlisted command, appends exactly one audit row whose ok, return_code
and stderr equal the command result, answers 200 when the command
succeeded and 500 otherwise, and the response envelope carries the
command output, the echoed request parameters and the timestamp. -/
theorem claim2_exec_audit_complete (cfg : Config) (actor ip : String)
    (req : ActionRequest) (exec : List String → CmdResult) (nowIso : String)
    (audit : List AuditRow)
    (htt : pyStrip req.target_type = "service" ∨ pyStrip req.target_type = "container")
    (htgt : pyStrip req.target ≠ "")
    (hact : (allowedActions cfg (pyStrip req.target_type)).contains (pyStrip req.action) = true)
    (htar : (configuredTargets cfg (pyStrip req.target_type)).contains (pyStrip req.target) = true) :
    executeAction cfg actor ip req exec nowIso audit =
      (let tt := pyStrip req.target_type
       let a := pyStrip req.action
       let t := pyStrip req.target
       let command :=
         if tt = "service" then [ "sudo", "-n", "systemctl", a, t ]
         else [ "sudo", "-n", "docker", a, t ]
       let r := exec command
       { status := if r.ok then 200 else 500
         response :=
           { ok := r.ok, error := "", target_type := tt, target := t, action := a
             reason := pyStrip req.reason, stdout := r.stdout, stderr := r.stderr
             return_code := r.return_code, timestamp_utc := nowIso }
         audit := audit ++
           [{ timestamp_utc := nowIso, actor := actor, remote_ip := ip
              target_type := tt, target := t, action := a, reason := pyStrip req.reason
              ok := r.ok, return_code := some r.return_code, stderr := r.stderr }]
         spawned := [command] }) := by
  have hne : ¬ (pyStrip req.target_type ≠ "service" ∧ pyStrip req.target_type ≠ "container") := by
    rcases htt with h | h <;> simp [h]
  have hact' : pyStrip req.action ∈ allowedActions cfg (pyStrip req.target_type) := by
    simpa using hact
  have htar' : pyStrip req.target ∈ configuredTargets cfg (pyStrip req.target_type) := by
    simpa using htar
  unfold executeAction
  simp [hne, htgt, hact', htar']

/-- Witness for claim C2 at a concrete accepted request. -/
theorem claim2_witness :
    executeAction demoCfg "alice" "127.0.0.1"
      { target_type := "service", action := "restart", target := "nginx", reason := "r" }
      demoExec "t0" [] =
      { status := 200
        response :=
          { ok := true, error := "", target_type := "service", target := "nginx"
            action := "restart", reason := "r", stdout := "", stderr := ""
            return_code := 0, timestamp_utc := "t0" }
        audit := [{ timestamp_utc := "t0", actor := "alice", remote_ip := "127.0.0.1"
                    target_type := "service", target := "nginx", action := "restart"
                    reason := "r", ok := true, return_code := some 0, stderr := "" }]
        spawned := [[ "sudo", "-n", "systemctl", "restart", "nginx" ]] } := by
  have h := claim2_exec_audit_complete demoCfg "alice" "127.0.0.1"
    { target_type := "service", action := "restart", target := "nginx", reason := "r" }
    demoExec "t0" [] (Or.inl (by decide)) (by decide) (by decide) (by decide)
  rw [h]
  decide

/-- Claim C3: with RC_ADMIN_TOKEN unset or empty, every request to a path
without the health prefix is answered 401 (GET and POST alike) regardless
of the supplied X-RC-Token header, while GET /api/v1/health is answered
200 without authentication. -/
theorem claim3_fail_closed_auth (env : Option String)
    (henv : env = none ∨ env = some "") :
    (∀ collectOk rawPath tokenHeader query,
       strStartsWith rawPath "/api/v1/health" = false →
       handleGet (mkAdminToken env) collectOk rawPath tokenHeader query = 401) ∧
    (∀ cfg st exec runner nowTs nowIso rawPath tokenHeader actorHeader ip len maxBody body,
       strStartsWith rawPath "/api/v1/health" = false →
       (handlePost (mkAdminToken env) cfg st exec runner nowTs nowIso rawPath
          tokenHeader actorHeader ip len maxBody body).1 = 401) ∧
    (∀ collectOk tokenHeader query,
       handleGet (mkAdminToken env) collectOk "/api/v1/health" tokenHeader query = 200) := by
  have htok : mkAdminToken env = "" := by
    rcases henv with h | h <;> simp [h, mkAdminToken] <;> decide
  refine ⟨?_, ?_, ?_⟩
  · intro collectOk rawPath tokenHeader query hpre
    simp [handleGet, tokenOk, hpre, htok, requireToken]
  · intro cfg st exec runner nowTs nowIso rawPath tokenHeader actorHeader ip len maxBody body hpre
    simp [handlePost, tokenOk, hpre, htok, requireToken]
  · intro collectOk tokenHeader query
    have hs : strStartsWith "/api/v1/health" "/api/v1/health" = true := by decide
    have hp : pathOf "/api/v1/health" = "/api/v1/health" := by decide
    simp [handleGet, tokenOk, hs, hp]

/-- Witness for claim C3: unset token, one authenticated GET, one
authenticated POST, and the health route. -/
theorem claim3_witness :
    handleGet (mkAdminToken none) true "/api/v1/status" "secret" [] = 401 ∧
    (handlePost (mkAdminToken none) demoCfg demoStore demoExec demoRunner 0 "t0"
       "/api/v1/action" "secret" "" "127.0.0.1" (some 2) 16384
       (.obj { target_type := "service", action := "restart", target := "nginx", reason := "" }
         "")).1 = 401 ∧
    handleGet (mkAdminToken none) true "/api/v1/health" "anything" [] = 200 :=
  ⟨(claim3_fail_closed_auth none (Or.inl rfl)).1 true "/api/v1/status" "secret" [] (by decide),
   (claim3_fail_closed_auth none (Or.inl rfl)).2.1 demoCfg demoStore demoExec demoRunner 0 "t0"
     "/api/v1/action" "secret" "" "127.0.0.1" (some 2) 16384
     (.obj { target_type := "service", action := "restart", target := "nginx", reason := "" } "")
     (by decide),
   (claim3_fail_closed_auth none (Or.inl rfl)).2.2 true "anything" []⟩

/-- Claim C10: the authentication bypass keys on the raw-path prefix, not
on the exact health route: any path with the health prefix (for example
/api/v1/healthanything) is answered without the token being consulted
(here: 404, for any token header and any admin token), while every path
without the prefix is answered 401 whenever the supplied token does not
validate. -/
theorem claim10_health_prefix_bypass :
    (∀ adminToken collectOk tokenHeader query,
       handleGet adminToken collectOk "/api/v1/healthanything" tokenHeader query = 404) ∧
    (∀ adminToken collectOk rawPath tokenHeader query,
       strStartsWith rawPath "/api/v1/health" = false →
       requireToken adminToken (pyStrip tokenHeader) = false →
       handleGet adminToken collectOk rawPath tokenHeader query = 401) := by
  constructor
  · intro adminToken collectOk tokenHeader query
    have hs : strStartsWith "/api/v1/healthanything" "/api/v1/health" = true := by decide
    have hp : pathOf "/api/v1/healthanything" = "/api/v1/healthanything" := by decide
    simp [handleGet, tokenOk, hs, hp]
  · intro adminToken collectOk rawPath tokenHeader query hpre htok
    simp [handleGet, tokenOk, hpre, htok]

/-- Witness for claim C10: the prefixed-but-not-health path bypasses a
wrong token and yields 404; the same wrong token on a non-prefixed path
yields 401. -/
theorem claim10_witness :
    handleGet "secret" true "/api/v1/healthanything" "wrong" [] = 404 ∧
    handleGet "secret" true "/api/v1/audit" "wrong" [] = 401 :=
  ⟨claim10_health_prefix_bypass.1 "secret" true "wrong" [],
   claim10_health_prefix_bypass.2 "secret" true "/api/v1/audit" "wrong" []
     (by decide) (by decide)⟩

/-- Claim C7: run_probe totalises the type-specific logic: the envelope
always carries the wall-clock latency, and an exception (for a supported
type) or an unsupported type yields ok = false, status error, the message
in error, and the requested probe type echoed in the payload.  The model
of run_probe is a total function, so the runner never raises. -/
theorem claim7_run_probe_never_raises (started ended : Int) (probe_type : String)
    (typeSpecific : Except String InnerResult) :
    (runProbe started ended probe_type typeSpecific).latency_ms = (ended - started) * 1000 ∧
    (∀ msg, supportedProbeTypes.contains probe_type = true →
       typeSpecific = .error msg →
       (runProbe started ended probe_type typeSpecific).ok = false ∧
       (runProbe started ended probe_type typeSpecific).status = "error" ∧
       (runProbe started ended probe_type typeSpecific).error = msg ∧
       (runProbe started ended probe_type typeSpecific).payload = .probeMeta probe_type) ∧
    (supportedProbeTypes.contains probe_type = false →
       (runProbe started ended probe_type typeSpecific).ok = false ∧
       (runProbe started ended probe_type typeSpecific).status = "error" ∧
       (runProbe started ended probe_type typeSpecific).error =
         "Unsupported probe type: " ++ probe_type ∧
       (runProbe started ended probe_type typeSpecific).payload = .probeMeta probe_type) := by
  refine ⟨?_, ?_, ?_⟩
  · unfold runProbe
    split <;> simp
  · intro msg hsup herr
    have hm : probe_type ∈ supportedProbeTypes := by simpa using hsup
    simp [runProbe, hm, herr]
  · intro hsup
    have hm : probe_type ∉ supportedProbeTypes := by simpa using hsup
    simp [runProbe, hm]

/-- Witness for claim C7: an exception inside a supported probe and an
unsupported probe type. -/
theorem claim7_witness :
    (runProbe 10 12 "tcp_check" (.error "boom")).error = "boom" ∧
    (runProbe 10 12 "bogus" (.ok { ok := true, status := "healthy", error := ""
                                   payload := .empty })).status = "error" :=
  ⟨((claim7_run_probe_never_raises 10 12 "tcp_check" (.error "boom")).2.1 "boom"
      (by decide) rfl).2.2.1,
   ((claim7_run_probe_never_raises 10 12 "bogus"
      (.ok { ok := true, status := "healthy", error := "", payload := .empty })).2.2
      (by decide)).2.1⟩

/-- Internal lemma: find? by key commutes with mapping a key-preserving
function over the definitions table. -/
theorem find?_map_keyFixed (f : StoredDef → StoredDef) (k : String)
    (hf : ∀ d, (f d).probe_key = d.probe_key) (l : List StoredDef) :
    (l.map f).find? (fun d => d.probe_key = k) =
      (l.find? (fun d => d.probe_key = k)).map f := by
  induction l with
  | nil => simp
  | cons a t ih =>
      by_cases h : a.probe_key = k
      · simp [List.find?_cons, hf, h]
      · simp [List.find?_cons, hf, h, ih]

/-- Claim C9: run_probe_once executes and persists a run for any stored
definition, enabled or not, and advances next_run_at to now plus the
interval; only an absent key yields 404 with the store unchanged. -/
theorem claim9_run_probe_once_ignores_enabled (st : Store) (nowTs : Int) (key : String)
    (runner : StoredDef → RunEnv) :
    (∀ p, getProbeDefinition key st = some p →
       runProbeOnce st nowTs key runner =
         (200, saveProbeRun st key (runner p) (nowTs + p.interval_seconds)) ∧
       (saveProbeRun st key (runner p) (nowTs + p.interval_seconds)).runs =
         st.runs ++ [{ id := st.nextRunId, probe_key := key
                       started_at := (runner p).started_at
                       ended_at := (runner p).ended_at
                       ok := (runner p).ok, status := (runner p).status
                       latency_ms := (runner p).latency_ms
                       error := (runner p).error
                       payload := (runner p).payload }] ∧
       (getProbeDefinition key
           (saveProbeRun st key (runner p) (nowTs + p.interval_seconds))).map
         (fun d => d.next_run_at) = some (some (nowTs + p.interval_seconds))) ∧
    (getProbeDefinition key st = none →
       runProbeOnce st nowTs key runner = (404, st)) := by
  constructor
  · intro p hp
    refine ⟨by simp [runProbeOnce, hp], by simp [saveProbeRun], ?_⟩
    have hkey : p.probe_key = key := by
      have := List.find?_some hp
      simpa using this
    have hf : ∀ d : StoredDef, ((fun d : StoredDef =>
        if d.probe_key = key then
          { d with last_run_at := some (runner p).ended_at
                   next_run_at := some (nowTs + p.interval_seconds) }
        else d) d).probe_key = d.probe_key := by
      intro d; by_cases h : d.probe_key = key <;> simp [h]
    unfold getProbeDefinition saveProbeRun
    simp only []
    rw [find?_map_keyFixed _ key hf st.defs]
    unfold getProbeDefinition at hp
    rw [hp]
    simp [hkey]
  · intro hnone
    simp [runProbeOnce, hnone]

/-- Witness for claim C9: the demo store whose only definition is
disabled still runs and persists, and a missing key yields 404. -/
theorem claim9_witness :
    runProbeOnce demoStore 100 "ssh" demoRunner =
      (200, saveProbeRun demoStore "ssh" (demoRunner demoDef) (100 + 60)) ∧
    demoDef.enabled = false ∧
    runProbeOnce demoStore 100 "nope" demoRunner = (404, demoStore) :=
  ⟨((claim9_run_probe_once_ignores_enabled demoStore 100 "ssh" demoRunner).1 demoDef
      (by decide)).1,
   by decide,
   (claim9_run_probe_once_ignores_enabled demoStore 100 "nope" demoRunner).2 (by decide)⟩

/-- Claim C4 counterexample: on a configuration whose service-action
entry carries a trailing space, the gateway rejects restart of nginx with
403 and spawns nothing, while the helper validates the same request
against its stripped copy and executes it — the two validations are not
identical. -/
theorem claim4_counterexample :
    (executeAction spacedCfg "a" "ip"
      { target_type := "service", action := "restart", target := "nginx", reason := "" }
      demoExec "t0" []).status = 403 ∧
    (executeAction spacedCfg "a" "ip"
      { target_type := "service", action := "restart", target := "nginx", reason := "" }
      demoExec "t0" []).spawned = [] ∧
    (helperExecute spacedCfg
      { op := "service_action", action := "restart", target := "nginx" }
      demoExec).spawned = [[ "systemctl", "restart", "nginx" ]] ∧
    (helperExecute spacedCfg
      { op := "service_action", action := "restart", target := "nginx" }
      demoExec).result.ok = true := by
  decide

/-- Internal lemma: on a stripped list, the strip-and-drop-empties
normalization of the helper is the identity. -/
theorem stripped_list_id (l : List String) (h : ∀ s ∈ l, pyStrip s = s ∧ s ≠ "") :
    (l.map pyStrip).filter (fun s => s ≠ "") = l := by
  induction l with
  | nil => rfl
  | cons a t ih =>
      have ha := h a (by simp)
      have ht : ∀ s ∈ t, pyStrip s = s ∧ s ≠ "" := fun s hs => h s (by simp [hs])
      simp [ha.1, ha.2, List.filter_cons]
      simpa using ih ht

/-- Internal lemma: when the helper executes a service_action request. -/
theorem helper_service_spawned (cfg : Config) (action target : String)
    (exec : List String → CmdResult) :
    (helperExecute cfg { op := "service_action", action := action, target := target }
        exec).spawned ≠ [] ↔
      (pyStrip target ≠ "" ∧
       pyStrip action ∈ helperActions cfg "service" ∧
       pyStrip target ∈ helperServices cfg) := by
  have h1 : pyStrip "service_action" = "service_action" := by decide
  by_cases ht : pyStrip target = ""
  · simp [helperExecute, h1, ht]
  · by_cases ha : pyStrip action ∈ helperActions cfg "service"
    · by_cases hs : pyStrip target ∈ helperServices cfg
      · simp [helperExecute, h1, ht, ha, hs]
      · simp [helperExecute, h1, ht, ha, hs]
    · simp [helperExecute, h1, ht, ha]

/-- Internal lemma: when the helper executes a container_action request. -/
theorem helper_container_spawned (cfg : Config) (action target : String)
    (exec : List String → CmdResult) :
    (helperExecute cfg { op := "container_action", action := action, target := target }
        exec).spawned ≠ [] ↔
      (pyStrip target ≠ "" ∧
       pyStrip action ∈ helperActions cfg "container" ∧
       pyStrip target ∈ helperContainers cfg) := by
  have h1 : pyStrip "container_action" = "container_action" := by decide
  by_cases ht : pyStrip target = ""
  · simp [helperExecute, h1, ht]
  · by_cases ha : pyStrip action ∈ helperActions cfg "container"
    · by_cases hs : pyStrip target ∈ helperContainers cfg
      · simp [helperExecute, h1, ht, ha, hs]
      · simp [helperExecute, h1, ht, ha, hs]
    · simp [helperExecute, h1, ht, ha]

/-- Internal lemma: when the gateway spawns for a service or container
request (target_type already one of the two valid values). -/
theorem gateway_spawned (cfg : Config) (tt action target actor ip reason nowIso : String)
    (exec : List String → CmdResult) (audit : List AuditRow)
    (htt : tt = "service" ∨ tt = "container") (hstrip : pyStrip tt = tt) :
    (executeAction cfg actor ip
        { target_type := tt, action := action, target := target, reason := reason }
        exec nowIso audit).spawned ≠ [] ↔
      (pyStrip target ≠ "" ∧
       pyStrip action ∈ allowedActions cfg tt ∧
       pyStrip target ∈ configuredTargets cfg tt) := by
  have hne : ¬ (tt ≠ "service" ∧ tt ≠ "container") := by
    rcases htt with h | h <;> simp [h]
  by_cases ht : pyStrip target = ""
  · simp [executeAction, hstrip, hne, ht]
  · by_cases ha : pyStrip action ∈ allowedActions cfg tt
    · by_cases hs : pyStrip target ∈ configuredTargets cfg tt
      · simp [executeAction, hstrip, hne, ht, ha, hs]
      · simp [executeAction, hstrip, hne, ht, ha, hs]
    · simp [executeAction, hstrip, hne, ht, ha]

/-- Internal lemma: the helper answers an error envelope whenever it does
not spawn a service_action or container_action command. -/
theorem helper_reject_not_ok (cfg : Config) (op action target : String)
    (exec : List String → CmdResult)
    (hop : pyStrip op = "service_action" ∨ pyStrip op = "container_action")
    (hsp : (helperExecute cfg { op := op, action := action, target := target }
        exec).spawned = []) :
    (helperExecute cfg { op := op, action := action, target := target }
        exec).result.ok = false := by
  have hcsm : pyStrip op ≠ "container_status_map" := by
    rcases hop with h | h <;> simp [h]
  have hne : ¬ (pyStrip op ≠ "service_action" ∧ pyStrip op ≠ "container_action") := by
    rcases hop with h | h <;> simp [h]
  by_cases ht : pyStrip target = ""
  · simp [helperExecute, hcsm, hne, ht, helperErr]
  · rcases hop with h | h
    · by_cases ha : pyStrip action ∈ helperActions cfg "service"
      · by_cases hs : pyStrip target ∈ helperServices cfg
        · exfalso
          simp [helperExecute, hcsm, hne, ht, h, ha, hs] at hsp
        · simp [helperExecute, hcsm, hne, ht, h, ha, hs, helperErr]
      · simp [helperExecute, hcsm, hne, ht, h, ha, helperErr]
    · have hsv : pyStrip op ≠ "service_action" := by simp [h]
      by_cases ha : pyStrip action ∈ helperActions cfg "container"
      · by_cases hs : pyStrip target ∈ helperContainers cfg
        · exfalso
          simp [helperExecute, hcsm, hne, ht, h, hsv, ha, hs] at hsp
        · simp [helperExecute, hcsm, hne, ht, h, hsv, ha, hs, helperErr]
      · simp [helperExecute, hcsm, hne, ht, h, hsv, ha, helperErr]

/-- Claim C4, amended: the helper re-checks the same four validation
steps, but against the stripped copy of the config lists; on
configurations whose entries are already stripped and non-empty the two
agree exactly: the helper runs the privileged command precisely when the
gateway validation pipeline accepts the corresponding triple, and answers
an error envelope otherwise. -/
theorem claim4_amended_helper_matches_gateway (cfg : Config) (hc : StrippedConfig cfg)
    (action target actor ip reason nowIso : String)
    (execH execG : List String → CmdResult) (audit : List AuditRow) :
    ((helperExecute cfg { op := "service_action", action := action, target := target }
        execH).spawned ≠ [] ↔
      (executeAction cfg actor ip
        { target_type := "service", action := action, target := target, reason := reason }
        execG nowIso audit).spawned ≠ []) ∧
    ((helperExecute cfg { op := "container_action", action := action, target := target }
        execH).spawned ≠ [] ↔
      (executeAction cfg actor ip
        { target_type := "container", action := action, target := target, reason := reason }
        execG nowIso audit).spawned ≠ []) ∧
    ((helperExecute cfg { op := "service_action", action := action, target := target }
        execH).spawned = [] →
      (helperExecute cfg { op := "service_action", action := action, target := target }
        execH).result.ok = false) ∧
    ((helperExecute cfg { op := "container_action", action := action, target := target }
        execH).spawned = [] →
      (helperExecute cfg { op := "container_action", action := action, target := target }
        execH).result.ok = false) := by
  have hs : helperServices cfg = cfg.services :=
    stripped_list_id _ (fun s hsm => hc s (by simp [hsm]))
  have hk : helperContainers cfg = cfg.containers :=
    stripped_list_id _ (fun s hsm => hc s (by simp [hsm]))
  have ha : helperActions cfg "service" = cfg.serviceActions := by
    unfold helperActions
    simpa using stripped_list_id cfg.serviceActions (fun s hsm => hc s (by simp [hsm]))
  have hb : helperActions cfg "container" = cfg.containerActions := by
    unfold helperActions
    simpa using stripped_list_id cfg.containerActions (fun s hsm => hc s (by simp [hsm]))
  refine ⟨?_, ?_, ?_, ?_⟩
  · rw [helper_service_spawned, gateway_spawned cfg "service" action target actor ip
      reason nowIso execG audit (Or.inl rfl) (by decide)]
    simp [hs, ha, allowedActions, configuredTargets]
  · rw [helper_container_spawned, gateway_spawned cfg "container" action target actor ip
      reason nowIso execG audit (Or.inr rfl) (by decide)]
    simp [hk, hb, allowedActions, configuredTargets]
  · intro hsp
    exact helper_reject_not_ok cfg "service_action" action target execH
      (Or.inl (by decide)) hsp
  · intro hsp
    exact helper_reject_not_ok cfg "container_action" action target execH
      (Or.inr (by decide)) hsp

/-- Witness for the amended claim C4 at a stripped configuration. -/
theorem claim4_witness :
    ((helperExecute demoCfg { op := "service_action", action := "restart", target := "nginx" }
        demoExec).spawned ≠ [] ↔
      (executeAction demoCfg "a" "ip"
        { target_type := "service", action := "restart", target := "nginx", reason := "" }
        demoExec "t0" []).spawned ≠ []) :=
  (claim4_amended_helper_matches_gateway demoCfg
    (by intro s hsm; fin_cases hsm <;> exact ⟨by decide, by decide⟩)
    "restart" "nginx" "a" "ip" "" "t0" demoExec demoExec []).1

/-- Internal lemma: a step passes _step_ok exactly when it is skipped or
its ok field holds. -/
theorem stepOk_eq (s : Step) : stepOk s = (s.skipped || s.ok) := by
  unfold stepOk
  cases hs : s.skipped <;> simp

/-- Internal lemma: the composite aggregation over any steps list whose
non-required steps all pass _step_ok: no failing step exactly when every
required step is ok or skipped. -/
theorem agg_ok_iff (steps : List Step)
    (hnr : ∀ s ∈ steps, s.required = false → stepOk s = true) :
    ((steps.filter (fun s => ! stepOk s)).isEmpty = true ↔
      ∀ s ∈ steps, s.required = true → (s.skipped = true ∨ s.ok = true)) := by
  rw [List.isEmpty_iff, List.filter_eq_nil_iff]
  constructor
  · intro h s hs _
    have hsk := h s hs
    have hso : stepOk s = true := by
      cases hh : stepOk s
      · rw [hh] at hsk
        simp at hsk
      · rfl
    rw [stepOk_eq] at hso
    simpa using hso
  · intro h s hs
    have hso : stepOk s = true := by
      by_cases hr : s.required = true
      · rw [stepOk_eq]
        have := h s hs hr
        rcases this with hh | hh <;> simp [hh]
      · exact hnr s hs (by simpa using hr)
    simp [hso]

/-- Claim C8: in both composite probes a step counts as ok iff skipped or
its ok field holds; the envelope has ok exactly when every required step
is ok or skipped; status is healthy when ok and degraded otherwise; the
error string names exactly the failing steps. -/
theorem claim8_composite_aggregation (baseUrl nidUrl : String) (tcp : TcpRes)
    (http : HttpRes) (dsn : String) (oLim fLim : Int) (oRes fRes : PsqlRes)
    (ntcp : TcpRes) (bh rh gh : HttpRes) :
    ((probeSmsHealth baseUrl tcp http dsn oLim fLim oRes fRes).ok = true ↔
      ∀ s ∈ smsSteps tcp http dsn oLim fLim oRes fRes, s.required = true →
        (s.skipped = true ∨ s.ok = true)) ∧
    ((probeSmsHealth baseUrl tcp http dsn oLim fLim oRes fRes).ok = true →
      (probeSmsHealth baseUrl tcp http dsn oLim fLim oRes fRes).status = "healthy") ∧
    ((probeSmsHealth baseUrl tcp http dsn oLim fLim oRes fRes).ok = false →
      (probeSmsHealth baseUrl tcp http dsn oLim fLim oRes fRes).status = "degraded") ∧
    (probeSmsHealth baseUrl tcp http dsn oLim fLim oRes fRes).error =
      String.intercalate "; "
        (((smsSteps tcp http dsn oLim fLim oRes fRes).filter
            (fun s => !(s.skipped || s.ok))).map (fun s => s.name)) ∧
    ((probeNidHealth nidUrl ntcp bh rh gh).ok = true ↔
      ∀ s ∈ nidSteps ntcp bh rh gh, s.required = true →
        (s.skipped = true ∨ s.ok = true)) ∧
    ((probeNidHealth nidUrl ntcp bh rh gh).ok = true →
      (probeNidHealth nidUrl ntcp bh rh gh).status = "healthy") ∧
    ((probeNidHealth nidUrl ntcp bh rh gh).ok = false →
      (probeNidHealth nidUrl ntcp bh rh gh).status = "degraded") ∧
    (probeNidHealth nidUrl ntcp bh rh gh).error =
      String.intercalate "; "
        (((nidSteps ntcp bh rh gh).filter
            (fun s => !(s.skipped || s.ok))).map (fun s => s.name)) := by
  have hsok : (probeSmsHealth baseUrl tcp http dsn oLim fLim oRes fRes).ok =
      ((smsSteps tcp http dsn oLim fLim oRes fRes).filter
        (fun s => ! stepOk s)).isEmpty := rfl
  have hsst : (probeSmsHealth baseUrl tcp http dsn oLim fLim oRes fRes).status =
      (if ((smsSteps tcp http dsn oLim fLim oRes fRes).filter
            (fun s => ! stepOk s)).isEmpty then "healthy" else "degraded") := rfl
  have hser : (probeSmsHealth baseUrl tcp http dsn oLim fLim oRes fRes).error =
      String.intercalate "; "
        (((smsSteps tcp http dsn oLim fLim oRes fRes).filter
            (fun s => ! stepOk s)).map (fun s => s.name)) := rfl
  have hnok : (probeNidHealth nidUrl ntcp bh rh gh).ok =
      ((nidSteps ntcp bh rh gh).filter (fun s => ! stepOk s)).isEmpty := rfl
  have hnst : (probeNidHealth nidUrl ntcp bh rh gh).status =
      (if ((nidSteps ntcp bh rh gh).filter (fun s => ! stepOk s)).isEmpty
        then "healthy" else "degraded") := rfl
  have hner : (probeNidHealth nidUrl ntcp bh rh gh).error =
      String.intercalate "; "
        (((nidSteps ntcp bh rh gh).filter (fun s => ! stepOk s)).map
          (fun s => s.name)) := rfl
  have hnrS : ∀ s ∈ smsSteps tcp http dsn oLim fLim oRes fRes,
      s.required = false → stepOk s = true := by
    intro s hs
    by_cases hd : dsn = ""
    · simp [smsSteps, hd] at hs
      rcases hs with h | h | h <;> subst h <;> simp [stepOk]
    · simp [smsSteps, hd] at hs
      rcases hs with h | h | h | h <;> subst h <;> simp
  have hnrN : ∀ s ∈ nidSteps ntcp bh rh gh, s.required = false → stepOk s = true := by
    intro s hs
    simp [nidSteps] at hs
    rcases hs with h | h | h | h <;> subst h <;> simp
  refine ⟨?_, ?_, ?_, ?_, ?_, ?_, ?_, ?_⟩
  · rw [hsok]; exact agg_ok_iff _ hnrS
  · intro h; rw [hsok] at h; rw [hsst]; simp [h]
  · intro h; rw [hsok] at h; rw [hsst]; simp [h]
  · rw [hser]; simp [stepOk_eq]
  · rw [hnok]; exact agg_ok_iff _ hnrN
  · intro h; rw [hnok] at h; rw [hnst]; simp [h]
  · intro h; rw [hnok] at h; rw [hnst]; simp [h]
  · rw [hner]; simp [stepOk_eq]

/-- Witness for claim C8 at concrete step outcomes (provider reachable,
database backlog over threshold). -/
theorem claim8_witness :
    ((probeSmsHealth "https://api.afromessage.com/api" { ok := true, error := "" }
        { ok := true, status_code := 200, error := "" } "postgres:" 200 20
        { ok := true, value := some 500, err := "" }
        { ok := true, value := some 0, err := "" }).ok = true ↔
      ∀ s ∈ smsSteps { ok := true, error := "" }
          { ok := true, status_code := 200, error := "" } "postgres:" 200 20
          { ok := true, value := some 500, err := "" }
          { ok := true, value := some 0, err := "" },
        s.required = true → (s.skipped = true ∨ s.ok = true)) :=
  (claim8_composite_aggregation "https://api.afromessage.com/api" ""
    { ok := true, error := "" } { ok := true, status_code := 200, error := "" }
    "postgres:" 200 20 { ok := true, value := some 500, err := "" }
    { ok := true, value := some 0, err := "" } { ok := true, error := "" }
    { ok := true, status_code := 200, error := "" }
    { ok := true, status_code := 200, error := "" }
    { ok := true, status_code := 200, error := "" }).1

/-- Claim C5: every get_latest_probes entry joins the greatest-id run of
its probe key; age_seconds is now minus that run's ended_at and none
without a run; is_stale holds iff there is no run or the age exceeds the
definition's stale_after_seconds. -/
theorem claim5_staleness_law (nowTs : Int) (st : Store) (e : ProbeLatest)
    (he : e ∈ getLatestProbes nowTs st) :
    (∀ r, e.latest = some r → r.probe_key = e.key ∧ r ∈ st.runs ∧
       ∀ r2 ∈ st.runs, r2.probe_key = e.key → r2.id ≤ r.id) ∧
    (e.latest = none → ∀ r ∈ st.runs, r.probe_key ≠ e.key) ∧
    e.age_seconds = Option.map (fun r => nowTs - r.ended_at) e.latest ∧
    (e.is_stale = true ↔
      e.latest = none ∨
      ∃ r, e.latest = some r ∧ nowTs - r.ended_at > e.stale_after_seconds) := by
  obtain ⟨d, _, rfl⟩ := List.mem_map.mp he
  cases hmatch : latestRunFor st.runs d.probe_key with
  | none =>
      have hfil : st.runs.filter (fun r => r.probe_key = d.probe_key) = [] := by
        have := List.argmax_eq_none.mp hmatch
        exact this
      refine ⟨?_, ?_, ?_, ?_⟩
      · intro r hr
        simp [probeWithLatest, hmatch] at hr
      · intro _ r hr
        have := List.filter_eq_nil_iff.mp hfil r hr
        simpa [probeWithLatest, hmatch] using this
      · simp [probeWithLatest, hmatch]
      · simp [probeWithLatest, hmatch]
  | some r =>
      have hargmem : r ∈ (st.runs.filter
          (fun rr => rr.probe_key = d.probe_key)).argmax (fun rr => rr.id) := by
        rw [Option.mem_def]
        exact hmatch
      have hrfil : r ∈ st.runs.filter (fun rr => rr.probe_key = d.probe_key) :=
        List.argmax_mem hargmem
      have hrruns : r ∈ st.runs := (List.mem_filter.mp hrfil).1
      have hrkey : r.probe_key = d.probe_key := by
        have := (List.mem_filter.mp hrfil).2
        simpa using this
      have hkeyE : (probeWithLatest nowTs st.runs d).key = d.probe_key := by
        simp [probeWithLatest, hmatch]
      refine ⟨?_, ?_, ?_, ?_⟩
      · intro r0 hr0
        have hr0r : r = r0 := by
          simpa [probeWithLatest, hmatch] using hr0
        subst hr0r
        refine ⟨by rw [hkeyE]; exact hrkey, hrruns, ?_⟩
        intro r2 hr2 hk2
        rw [hkeyE] at hk2
        have h2fil : r2 ∈ st.runs.filter (fun rr => rr.probe_key = d.probe_key) := by
          rw [List.mem_filter]
          exact ⟨hr2, by simp [hk2]⟩
        exact List.le_of_mem_argmax h2fil hargmem
      · intro hnone
        simp [probeWithLatest, hmatch] at hnone
      · simp [probeWithLatest, hmatch]
      · simp [probeWithLatest, hmatch]

/-- Witness for claim C5 at the demo store. -/
theorem claim5_witness :
    probeWithLatest 100 demoStore.runs demoDef ∈ getLatestProbes 100 demoStore ∧
    ((probeWithLatest 100 demoStore.runs demoDef).is_stale = true ↔
      (probeWithLatest 100 demoStore.runs demoDef).latest = none ∨
      ∃ r, (probeWithLatest 100 demoStore.runs demoDef).latest = some r ∧
        100 - r.ended_at > (probeWithLatest 100 demoStore.runs demoDef).stale_after_seconds) :=
  have hm : probeWithLatest 100 demoStore.runs demoDef ∈ getLatestProbes 100 demoStore := by
    unfold getLatestProbes
    rw [List.mem_map]
    exact ⟨demoDef, by simp [demoStore, List.mem_mergeSort], rfl⟩
  ⟨hm, (claim5_staleness_law 100 demoStore (probeWithLatest 100 demoStore.runs demoDef)
      hm).2.2.2⟩

/-- Internal lemma: nextRunOf is none exactly when the key is absent. -/
theorem nextRunOf_eq_none (k : String) (l : List StoredDef) :
    nextRunOf k l = none ↔ l.find? (fun d => d.probe_key = k) = none := by
  unfold nextRunOf
  cases l.find? (fun d => d.probe_key = k) <;> simp

/-- Internal lemma: a some value of nextRunOf exhibits the stored
definition. -/
theorem nextRunOf_some (k : String) (l : List StoredDef) (v : Option Int)
    (h : nextRunOf k l = some v) :
    ∃ d ∈ l, d.probe_key = k ∧ d.next_run_at = v := by
  unfold nextRunOf at h
  cases hf : l.find? (fun d => d.probe_key = k) with
  | none => rw [hf] at h; simp at h
  | some d =>
      rw [hf] at h
      simp at h
      refine ⟨d, List.mem_of_find?_eq_some hf, ?_, h⟩
      have := List.find?_some hf
      simpa using this

/-- Internal lemma: one upsert step either preserves the recorded
next_run_at of an existing key or installs now for the upserted key. -/
theorem nextRunOf_upsert (now : Int) (l : List StoredDef) (n : NormDef) (k : String) :
    nextRunOf k (upsertDef now l n) =
      (match l.find? (fun d => d.probe_key = k) with
       | some d => some d.next_run_at
       | none => if k = n.probe_key then some (some now) else none) := by
  by_cases hex : l.any (fun d => d.probe_key = n.probe_key)
  · have hf : ∀ d : StoredDef, ((fun d : StoredDef =>
        if d.probe_key = n.probe_key then
          { d with probe_type := n.probe_type
                   interval_seconds := n.interval_seconds
                   timeout_seconds := n.timeout_seconds
                   stale_after_seconds := n.stale_after_seconds
                   enabled := n.enabled
                   probe_config_json := n.probe_config_json }
        else d) d).probe_key = d.probe_key := by
      intro d
      by_cases h : d.probe_key = n.probe_key <;> simp [h]
    unfold upsertDef nextRunOf
    rw [if_pos hex, find?_map_keyFixed _ k hf l]
    cases hfind : l.find? (fun d => d.probe_key = k) with
    | none =>
        simp only [Option.map_none]
        by_cases hk : k = n.probe_key
        · exfalso
          rw [List.find?_eq_none] at hfind
          rw [List.any_eq_true] at hex
          obtain ⟨d, hd, hdk⟩ := hex
          exact hfind d hd (by subst hk; simpa using hdk)
        · simp [hk]
    | some d =>
        by_cases h : d.probe_key = n.probe_key <;> simp [h]
  · unfold upsertDef nextRunOf
    rw [if_neg hex, List.find?_append]
    cases hfind : l.find? (fun d => d.probe_key = k) with
    | some d => simp
    | none =>
        by_cases hk : k = n.probe_key
        · simp [List.find?, hk]
        · have : ¬ (n.probe_key = k) := fun hh => hk hh.symm
          simp [List.find?, this, hk]

/-- Internal lemma: the upsert fold preserves the next_run_at recorded
for a key already present. -/
theorem nextRunOf_fold_present (now : Int) (ns : List NormDef) (l : List StoredDef)
    (k : String) (v : Option Int) (h : nextRunOf k l = some v) :
    nextRunOf k (ns.foldl (upsertDef now) l) = some v := by
  induction ns generalizing l with
  | nil => simpa using h
  | cons n t ih =>
      rw [List.foldl_cons]
      apply ih
      rw [nextRunOf_upsert]
      unfold nextRunOf at h
      cases hf : l.find? (fun d => d.probe_key = k) with
      | none => rw [hf] at h; simp at h
      | some d =>
          rw [hf] at h
          simp at h
          simp [h]

/-- Internal lemma: the upsert fold installs now as next_run_at for a key
absent from the store and named by one of the normalized definitions. -/
theorem nextRunOf_fold_new (now : Int) (ns : List NormDef) (l : List StoredDef)
    (k : String) (h : nextRunOf k l = none)
    (hk : k ∈ ns.map (fun n => n.probe_key)) :
    nextRunOf k (ns.foldl (upsertDef now) l) = some (some now) := by
  induction ns generalizing l with
  | nil => simp at hk
  | cons n t ih =>
      rw [List.foldl_cons]
      have hf : l.find? (fun d => d.probe_key = k) = none :=
        (nextRunOf_eq_none k l).mp h
      by_cases hkn : k = n.probe_key
      · apply nextRunOf_fold_present
        rw [nextRunOf_upsert, hf]
        simp [hkn]
      · apply ih
        · rw [nextRunOf_upsert, hf]
          simp [hkn]
        · rw [List.map_cons, List.mem_cons] at hk
          rcases hk with h1 | h1
          · exact absurd h1 hkn
          · exact h1

/-- Internal lemma: the disable-others map changes no key and no
next_run_at. -/
theorem nextRunOf_disable (desired : List String) (l : List StoredDef) (k : String) :
    nextRunOf k (l.map (fun d =>
      if desired.contains d.probe_key then d else { d with enabled := false })) =
      nextRunOf k l := by
  have hf : ∀ d : StoredDef, ((fun d : StoredDef =>
      if desired.contains d.probe_key then d else { d with enabled := false })
        d).probe_key = d.probe_key := by
    intro d
    by_cases h : d.probe_key ∈ desired <;> simp [h]
  unfold nextRunOf
  rw [find?_map_keyFixed _ k hf l]
  cases hfind : l.find? (fun d => d.probe_key = k) with
  | none => simp
  | some d => by_cases h : d.probe_key ∈ desired <;> simp [h]

/-- Internal lemma: a successful normalization strips the key. -/
theorem normalize_key (i : DefnInput) (n : NormDef)
    (h : normalizeProbeDefinition i = .ok n) : n.probe_key = pyStrip i.key := by
  unfold normalizeProbeDefinition at h
  by_cases h1 : pyStrip i.key = ""
  · rw [if_pos h1] at h
    simp at h
  · rw [if_neg h1] at h
    by_cases h2 : pyStrip i.ptype = ""
    · rw [if_pos h2] at h
      simp at h
    · rw [if_neg h2] at h
      simp at h
      rw [← h]

/-- Internal lemma: a successful mapM of normalization maps the keys to
the stripped input keys. -/
theorem mapM_normalize_keys (defs : List DefnInput) (normed : List NormDef)
    (h : defs.mapM normalizeProbeDefinition = Except.ok normed) :
    normed.map (fun n => n.probe_key) = defs.map (fun i => pyStrip i.key) := by
  induction defs generalizing normed with
  | nil =>
      rw [List.mapM_nil] at h
      simp [pure, Except.pure] at h
      simp [← h]
  | cons a t ih =>
      rw [List.mapM_cons] at h
      cases hga : normalizeProbeDefinition a with
      | error e => rw [hga] at h; simp [Bind.bind, Except.bind] at h
      | ok n =>
          rw [hga] at h
          cases hts : t.mapM normalizeProbeDefinition with
          | error e => rw [hts] at h; simp [Bind.bind, Except.bind] at h
          | ok ts =>
              rw [hts] at h
              simp [Bind.bind, Except.bind, pure, Except.pure] at h
              rw [← h]
              simp [normalize_key a n hga, ih ts hts]

/-- Claim C6 counterexample: syncing the EMPTY definitions list leaves a
previously stored enabled key enabled — the disable-others update is
guarded by a non-emptiness test on the desired key set, so the claimed
behaviour fails for the empty list. -/
theorem claim6_counterexample :
    syncProbeDefinitions enabledStore 5 [] = Except.ok enabledStore ∧
    (getProbeDefinition "k" enabledStore).map (fun d => d.enabled) = some true := by
  constructor
  · rfl
  · decide

/-- Claim C6, amended: for every NON-EMPTY definitions list (the code
skips the disable step for the empty list), after sync every stored key
not among the stripped input keys is disabled, the run history is
untouched and stays readable through get_probe_history, list_due_probes
returns only input keys, and every input key is stored with next_run_at
installed as now when the key was absent and preserved unchanged when it
existed. -/
theorem claim6_amended_sync_soft_delete (st : Store) (now : Int)
    (defs : List DefnInput) (st2 : Store) (hne : defs ≠ [])
    (hok : syncProbeDefinitions st now defs = Except.ok st2) :
    (∀ d ∈ st2.defs, d.probe_key ∉ defs.map (fun i => pyStrip i.key) →
       d.enabled = false) ∧
    st2.runs = st.runs ∧
    (∀ k limit, getProbeHistory k limit st2 = getProbeHistory k limit st) ∧
    (∀ t, ∀ d ∈ listDueProbes t st2, d.probe_key ∈ defs.map (fun i => pyStrip i.key)) ∧
    (∀ i ∈ defs,
       (nextRunOf (pyStrip i.key) st.defs = none →
          nextRunOf (pyStrip i.key) st2.defs = some (some now)) ∧
       (∀ v, nextRunOf (pyStrip i.key) st.defs = some v →
          nextRunOf (pyStrip i.key) st2.defs = some v) ∧
       (∃ d ∈ st2.defs, d.probe_key = pyStrip i.key)) := by
  unfold syncProbeDefinitions at hok
  cases hnm : defs.mapM normalizeProbeDefinition with
  | error e =>
      rw [hnm] at hok
      simp [Bind.bind, Except.bind] at hok
  | ok normed =>
      rw [hnm] at hok
      have hkeys : normed.map (fun n => n.probe_key) =
          defs.map (fun i => pyStrip i.key) :=
        mapM_normalize_keys defs normed hnm
      have hnormne : normed ≠ [] := by
        intro hcon
        rw [hcon] at hkeys
        simp only [List.map_nil] at hkeys
        have hdn : defs = [] := by
          cases defs with
          | nil => rfl
          | cons a t => simp at hkeys
        exact hne hdn
      have hdesired : (normed.map (fun n => n.probe_key)).isEmpty = false := by
        cases normed with
        | nil => exact absurd rfl hnormne
        | cons b bs => simp
      have hok2 : (Except.ok { st with
          defs :=
            if (normed.map (fun n => n.probe_key)).isEmpty then
              normed.foldl (upsertDef now) st.defs
            else
              (normed.foldl (upsertDef now) st.defs).map
                (fun d => if (normed.map (fun n => n.probe_key)).contains d.probe_key
                  then d else { d with enabled := false }) } :
          Except String Store) = Except.ok st2 := hok
      have h3 := Except.ok.inj hok2
      rw [hdesired, if_neg (by simp)] at h3
      subst h3
      have partA : ∀ d ∈ ((normed.foldl (upsertDef now) st.defs).map
          (fun d => if (normed.map (fun n => n.probe_key)).contains d.probe_key
            then d else { d with enabled := false })),
          d.probe_key ∉ defs.map (fun i => pyStrip i.key) → d.enabled = false := by
        intro d hd hk
        obtain ⟨d0, hd0, rfl⟩ := List.mem_map.mp hd
        by_cases hc : d0.probe_key ∈ normed.map (fun n => n.probe_key)
        · exfalso
          apply hk
          rw [← hkeys]
          simp [hc]
        · simp [hc]
      refine ⟨partA, rfl, ?_, ?_, ?_⟩
      · intro k limit
        rfl
      · intro t d hd
        unfold listDueProbes at hd
        rw [List.mem_mergeSort, List.mem_filter] at hd
        by_contra hkn
        have hdis := partA d hd.1 hkn
        have hen : d.enabled = true := by
          have := hd.2
          simp at this
          exact this.1
        rw [hdis] at hen
        exact Bool.false_ne_true hen
      · intro i hi
        have hnd : nextRunOf (pyStrip i.key)
            (((normed.foldl (upsertDef now) st.defs)).map
              (fun d => if (normed.map (fun n => n.probe_key)).contains d.probe_key
                then d else { d with enabled := false })) =
            nextRunOf (pyStrip i.key) (normed.foldl (upsertDef now) st.defs) :=
          nextRunOf_disable _ _ _
        have hkmem : pyStrip i.key ∈ normed.map (fun n => n.probe_key) := by
          rw [hkeys]
          exact List.mem_map_of_mem _ hi
        refine ⟨?_, ?_, ?_⟩
        · intro hnone
          rw [hnd]
          exact nextRunOf_fold_new now normed st.defs _ hnone hkmem
        · intro v hv
          rw [hnd]
          exact nextRunOf_fold_present now normed st.defs _ v hv
        · cases hnr : nextRunOf (pyStrip i.key) st.defs with
          | none =>
              have := nextRunOf_some _ _ _
                (hnd.trans (nextRunOf_fold_new now normed st.defs _ hnr hkmem))
              obtain ⟨d, hdm, hdk, _⟩ := this
              exact ⟨d, hdm, hdk⟩
          | some v =>
              have := nextRunOf_some _ _ _
                (hnd.trans (nextRunOf_fold_present now normed st.defs _ v hnr))
              obtain ⟨d, hdm, hdk, _⟩ := this
              exact ⟨d, hdm, hdk⟩

/-- Witness for the amended claim C6: one existing key is disabled, the
new key appears with next_run_at = now, history and due-list behave as
claimed. -/
theorem claim6_witness :
    (∀ d ∈ syncedStore.defs,
       d.probe_key ∉ [ syncInput ].map (fun i => pyStrip i.key) →
       d.enabled = false) ∧
    syncedStore.runs = enabledStore.runs ∧
    (∀ k limit, getProbeHistory k limit syncedStore = getProbeHistory k limit enabledStore) ∧
    (∀ t, ∀ d ∈ listDueProbes t syncedStore,
       d.probe_key ∈ [ syncInput ].map (fun i => pyStrip i.key)) ∧
    (∀ i ∈ [ syncInput ],
       (nextRunOf (pyStrip i.key) enabledStore.defs = none →
          nextRunOf (pyStrip i.key) syncedStore.defs = some (some 5)) ∧
       (∀ v, nextRunOf (pyStrip i.key) enabledStore.defs = some v →
          nextRunOf (pyStrip i.key) syncedStore.defs = some v) ∧
       (∃ d ∈ syncedStore.defs, d.probe_key = pyStrip i.key)) :=
  claim6_amended_sync_soft_delete enabledStore 5 [ syncInput ] syncedStore
    (by decide) (by rfl)

end RC
